import Mathlib

/-!
Verification of the emmrem-analysis argument-resolution, plotting-guard,
numeric-transform, smoothing and history-parsing behavior.

Each definition is a shallow embedding of a function from the repository
sources; line references point into the Python files under `src/`.
Python `int(...)`/`float(...)` parsing is modelled on decimal literals
(optional sign, digits, optional fractional part); quantities that Python
represents as IEEE doubles are modelled as exact rationals, and the pure
coordinate transforms are modelled over the reals.
-/

/-- Numeric value of a list of decimal digit characters (most significant
first), assuming every character is a digit. -/
def digitsNat (cs : List Char) : Nat :=
  cs.foldl (fun acc c => 10 * acc + (c.toNat - 48)) 0

/-- Model of Python unsigned integer-literal parsing: a nonempty string of
decimal digits. -/
def pyNatDigits (cs : List Char) : Option Nat :=
  if cs ≠ [] ∧ cs.all Char.isDigit then some (digitsNat cs) else none

/-- Model of Python `int(str)`: optional sign followed by decimal digits;
any other string raises `ValueError`, modelled as `none`. -/
def pyint (s : String) : Option Int :=
  match s.toList with
  | '+' :: rest => (pyNatDigits rest).map Int.ofNat
  | '-' :: rest => (pyNatDigits rest).map (fun n => -(n : Int))
  | cs => (pyNatDigits cs).map Int.ofNat

/-- Split a character list at every occurrence of `sep` (the pieces do not
contain `sep`; `n+1` pieces for `n` separators), as Python `str.split(sep)`
does for a single-character separator. -/
def splitListOn (sep : Char) : List Char → List (List Char)
  | [] => [[]]
  | c :: rest =>
    let r := splitListOn sep rest
    if c = sep then [] :: r
    else
      match r with
      | [] => [[c]]
      | h :: t => (c :: h) :: t

/-- Model of Python unsigned `float` literal parsing restricted to the forms
`digits`, `digits.digits`, `digits.` and `.digits` (no exponent, no
`inf`/`nan`), returning the exact value as a numerator/denominator pair. -/
def pyUnsignedFloat (cs : List Char) : Option (Nat × Nat) :=
  match splitListOn '.' cs with
  | [ip] => (pyNatDigits ip).map (fun n => (n, 1))
  | [ip, fp] =>
    if (ip ≠ [] ∨ fp ≠ []) ∧ ip.all Char.isDigit ∧ fp.all Char.isDigit then
      some (digitsNat ip * 10 ^ fp.length + digitsNat fp, 10 ^ fp.length)
    else none
  | _ => none

/-- Model of Python `float(str)` on decimal literals: optional sign followed
by an unsigned decimal literal; failure (`ValueError`) is `none`. -/
def pyfloat (s : String) : Option ℚ :=
  match s.toList with
  | '+' :: rest => (pyUnsignedFloat rest).map (fun p => mkRat p.1 p.2)
  | '-' :: rest => (pyUnsignedFloat rest).map (fun p => mkRat (-(p.1 : Int)) p.2)
  | cs => (pyUnsignedFloat cs).map (fun p => mkRat p.1 p.2)

/-- The tagged union produced by the Argument Resolver: either a tuple of
raw integer indices or a unit-tagged measurement
(`quantity.measure(*values, unit)` from the external `eprempy` library is
modelled by its list of values and its unit string). -/
inductive IndexerValue where
  | indices (l : List Int)
  | measurement (values : List ℚ) (unit : String)
deriving DecidableEq, Repr

/-- Result of `compute_indexer`: a value, or an uncaught Python exception
(`ValueError` from `int`/`float`). -/
inductive IndexerResult where
  | ok (v : IndexerValue)
  | error
deriving DecidableEq, Repr

/-- Length of the resolved tuple/measurement, as Python `len` reports it at
the plotting call sites. -/
def indexerLength : IndexerValue → Nat
  | .indices l => l.length
  | .measurement vs _ => vs.length

/-- `compute_indexer` from `src/support/interfaces.py` lines 151-163 (the
copy in `src/support/observers.py` lines 30-42 is textually identical):

```
if args is None:
    return (0,)
if len(args) == 1:
    return (int(args[0]),)
try:
    indices = [int(arg) for arg in args]
except ValueError:
    unit = args[-1]
    values = [float(arg) for arg in args[:-1]]
    return quantity.measure(*values, unit)
return tuple(indices)
```
-/
def compute_indexer (args : Option (List String)) : IndexerResult :=
  match args with
  | none => .ok (.indices [0])
  | some l =>
    if l.length = 1 then
      match pyint (l.headD "") with
      | some n => .ok (.indices [n])
      | none => .error
    else
      match l.mapM pyint with
      | some indices => .ok (.indices indices)
      | none =>
        match l.getLast? with
        | none => .error
        | some unit =>
          match (l.dropLast).mapM pyfloat with
          | some values => .ok (.measurement values unit)
          | none => .error

/-- The user-supplied species value: the CLI delivers either an integer
index or a symbol string (`--species "may be symbol or index"`). -/
inductive SpeciesValue where
  | index (n : Int)
  | symbol (s : String)
deriving DecidableEq, Repr

/-- `get_species` from `src/support/interfaces.py` lines 166-171 (identical
copy in `src/support/observers.py` lines 55-60):

```
species = user.get('species')
if species is not None: # allow value to be 0
    return species
return 0
```
-/
def get_species (species : Option SpeciesValue) : SpeciesValue :=
  match species with
  | some s => s
  | none => .index 0

/-- Result of `get_location`: a shell index or a radius measurement
(`quantity.measure(float(radius[0]), radius[1])`; the subsequent
`.withunit('au')` conversion happens in the external library and is not
modelled). -/
inductive LocationValue where
  | shell (n : Int)
  | radius (value : ℚ) (unit : String)
deriving DecidableEq, Repr

/-- `get_location` from `src/support/observers.py` lines 45-52:

```
shell = user.get('shell')
if shell is not None: # allow value to be 0
    return shell
if radius := user.get('radius'):
    return quantity.measure(float(radius[0]), radius[1]).withunit('au')
return 0
```

A `None` or empty `radius` is falsy, so both fall through to `return 0`;
a one-element `radius` raises `IndexError` at `radius[1]` and a
non-numeric `radius[0]` raises `ValueError`, both modelled as `none`. -/
def get_location (shell : Option Int) (radius : Option (List String)) :
    Option LocationValue :=
  match shell with
  | some s => some (.shell s)
  | none =>
    match radius with
    | some (v :: u :: _) => (pyfloat v).map (fun q => .radius q u)
    | some [_] => none
    | some [] => some (.shell 0)
    | none => some (.shell 0)

/-- The multi-valued-argument dispatch of `stream_flux` in
`src/stream-flux-energy.py` lines 50-69: `true` exactly when the final
`else: raise ValueError(...)` branch is reached.

```
if ntimes == 1 and nlocations == 1: ...
elif ntimes > 1 and nlocations == 1: ...
elif nlocations > 1 and ntimes == 1: ...
else: raise ValueError(
    "Either time or location, but not both, may be multi-valued")
```
-/
def stream_flux_raises (ntimes nlocations : Nat) : Bool :=
  if ntimes = 1 ∧ nlocations = 1 then false
  else if 1 < ntimes ∧ nlocations = 1 then false
  else if 1 < nlocations ∧ ntimes = 1 then false
  else true

/-- The guard of `main` in `src/plot-stream-flux.py` lines 30-33: `true`
exactly when `ValueError("Either time or radius, but not both, may be
multi-valued")` is raised. -/
def plot_stream_flux_raises (ntimes nradii : Nat) : Bool :=
  if 1 < ntimes ∧ 1 < nradii then true else false

/-- `sys.float_info.min`, the smallest positive normal IEEE double,
`2.2250738585072014e-308 = 2 ^ (-1022)`, as an exact rational. -/
def float_info_min : ℚ := mkRat 1 (2 ^ 1022)

/-- `smooth` from `src/plot-node-dqdt.py` lines 24-27 (identical copy in
`src/plot-node-history.py` lines 283-286):

```
xs = signal.savgol_filter(x, 11, 2)
return numpy.where(xs > 0, xs, sys.float_info.min)
```

`scipy.signal.savgol_filter` is an external library call; it is taken as a
parameter, applied exactly as the source applies it (its documented
behavior of returning an array of the input's length is a hypothesis of
the theorems below). `numpy.where(xs > 0, xs, m)` is elementwise. -/
def smooth (savgol_filter_11_2 : List ℚ → List ℚ) (x : List ℚ) : List ℚ :=
  (savgol_filter_11_2 x).map (fun v => if 0 < v then v else float_info_min)

/-- Python `str.lstrip('#')`: drop leading `'#'` characters. -/
def lstripHash (s : String) : String :=
  String.mk (s.toList.dropWhile (fun c => c = '#'))

/-- Python `str.rstrip('\n')`: drop trailing newline characters. -/
def rstripNewline (s : String) : String :=
  String.mk ((s.toList.reverse.dropWhile (fun c => c = '\n')).reverse)

/-- Python `str.strip()`: drop leading and trailing whitespace. -/
def pyStrip (s : String) : String :=
  String.mk
    (((s.toList.dropWhile Char.isWhitespace).reverse.dropWhile
      Char.isWhitespace).reverse)

/-- Python `str.split(c)` for a one-character separator. -/
def pySplitOn (c : Char) (s : String) : List String :=
  (splitListOn c s.toList).map String.mk

/-- Split a character list at every whitespace character. -/
def splitListWhenWS : List Char → List (List Char)
  | [] => [[]]
  | c :: rest =>
    let r := splitListWhenWS rest
    if c.isWhitespace then [] :: r
    else
      match r with
      | [] => [[c]]
      | h :: t => (c :: h) :: t

/-- Python `str.split()` with no separator: split on whitespace runs and
drop empty fields (the tokenization `numpy.loadtxt` applies to each row). -/
def pySplitWS (s : String) : List String :=
  ((splitListWhenWS s.toList).map String.mk).filter (fun t => t ≠ "")

/-- One data row as `numpy.loadtxt` reads it for a two-column file:
whitespace-separated fields converted to floats; anything else is a load
error. -/
def loadtxtRow (s : String) : Option (ℚ × ℚ) :=
  match pySplitWS s with
  | [a, b] =>
    match pyfloat a, pyfloat b with
    | some x, some y => some (x, y)
    | _, _ => none
  | _ => none

/-- Whether a string begins with the `numpy.loadtxt` comment character. -/
def startsHash (s : String) : Bool :=
  match s.toList with
  | '#' :: _ => true
  | _ => false

/-- Model of `numpy.loadtxt(fp, unpack=True)` on a two-column text body:
blank lines and `#` comment lines are skipped, every remaining row must
hold exactly two floats, and `unpack=True` returns the two columns. -/
def loadtxtUnpack2 (lines : List String) : Option (List ℚ × List ℚ) :=
  let rows := lines.filter
    (fun s => pySplitWS s ≠ [] ∧ ¬startsHash (pyStrip s))
  (rows.mapM loadtxtRow).map (fun ps => (ps.map Prod.fst, ps.map Prod.snd))

/-- Insert into the model of a Python `dict` built by repeated
`d[k] = v`: overwrite an existing key in place, else append. -/
def dictInsert (d : List (String × String)) (k v : String) :
    List (String × String) :=
  if d.any (fun p => p.1 = k) then
    d.map (fun p => if p.1 = k then (k, v) else p)
  else d ++ [(k, v)]

/-- The value `parse_history` returns: `{'time': ..., 'data': ...,
'info': {...}}`. -/
structure NodeHistory where
  time : List ℚ
  data : List ℚ
  info : List (String × String)
deriving DecidableEq, Repr

/-- `parse_history` from `src/node.py` lines 10-24, on the file's lines
(first line is the header consumed by `fp.readline()`, the rest feed
`numpy.loadtxt(fp, unpack=True)`):

```
header = fp.readline()
time, data = numpy.loadtxt(fp, unpack=True)
info = header.lstrip('#').rstrip('\n').split(';')
result = {'time': time, 'data': data, 'info': {}}
for entry in info:
    if entry:
        k, v = entry.split(':')
        result['info'][k.strip()] = v.strip()
```

An empty file, a malformed data row, or a metadata entry whose colon count
is not exactly one (so `k, v = entry.split(':')` cannot unpack) raises,
modelled as `none`. -/
def parse_history (lines : List String) : Option NodeHistory :=
  match lines with
  | [] => none
  | header :: rest =>
    match loadtxtUnpack2 rest with
    | none => none
    | some (time, data) =>
      let info := pySplitOn ';' (rstripNewline (lstripHash header))
      let entries := info.filter (fun e => e ≠ "")
      match entries.mapM (fun entry =>
          match pySplitOn ':' entry with
          | [k, v] => some (pyStrip k, pyStrip v)
          | _ => none) with
      | none => none
      | some kvs =>
        some ⟨time, data, kvs.foldl (fun d kv => dictInsert d kv.1 kv.2) []⟩

set_option maxRecDepth 8000 in
/-- The smallest positive normal IEEE double is positive. -/
lemma float_info_min_pos : 0 < float_info_min := by decide

/-- C1 (counterexample): resolving an explicitly empty token list does not
yield the default index tuple `(0,)`; it falls through the integer-parse
branch and returns the empty tuple. -/
theorem compute_indexer_empty_cex :
    compute_indexer (some []) ≠ IndexerResult.ok (.indices [0]) := by decide

/-- C1 (amended): an absent (`None`) token list resolves to the default
index tuple `(0,)`, while an explicitly empty token list resolves to the
empty index tuple `()`. -/
theorem compute_indexer_empty_resolution :
    compute_indexer none = IndexerResult.ok (.indices [0]) ∧
    compute_indexer (some []) = IndexerResult.ok (.indices []) := by decide

/-- C2: for a token list of length at least two in which not every token
parses as an integer, `compute_indexer` takes the last token as the unit
and parses the preceding tokens as floats, yielding that measurement when
they all parse and a parse error otherwise; in particular
`resolve(["1.0","2.0","au"]) == Measurement([1.0, 2.0], "au")`. -/
theorem compute_indexer_unit_branch (l : List String) (u : String)
    (h2 : 2 ≤ l.length) (hint : l.mapM pyint = none)
    (hu : l.getLast? = some u) :
    compute_indexer (some l) =
      (match (l.dropLast).mapM pyfloat with
       | some vs => IndexerResult.ok (.measurement vs u)
       | none => IndexerResult.error) ∧
    compute_indexer (some ["1.0", "2.0", "au"]) =
      IndexerResult.ok (.measurement [1, 2] "au") := by
  refine ⟨?_, by decide⟩
  simp only [compute_indexer]
  rw [if_neg (by omega), hint, hu]

/-- Witness for C2 at the concrete input `["1.5", "au"]`. -/
theorem compute_indexer_unit_branch_witness :
    compute_indexer (some ["1.5", "au"]) =
      IndexerResult.ok (.measurement [mkRat 3 2] "au") := by
  have h := (compute_indexer_unit_branch ["1.5", "au"] "au" (by decide)
    (by decide) (by decide)).1
  exact h.trans (by decide)

/-- C3: a single-token argument always goes through integer parsing — an
integer-parseable token `t` yields `Indices((int(t),))` and any other
single token raises a parse error instead of being read as a unit;
in particular `resolve(["abc"])` raises. -/
theorem compute_indexer_single_token :
    (∀ t : String, compute_indexer (some [t]) =
      (match pyint t with
       | some n => IndexerResult.ok (.indices [n])
       | none => IndexerResult.error)) ∧
    compute_indexer (some ["abc"]) = IndexerResult.error := by
  exact ⟨fun t => rfl, by decide⟩

/-- C4 (counterexample): a resolved time of length zero (produced by an
explicitly empty `--time` token list) together with a single-valued
location reaches the `raise ValueError` branch of `stream_flux`, although
neither argument is multi-valued. -/
theorem multivalued_guard_cex :
    compute_indexer (some []) = IndexerResult.ok (.indices []) ∧
    indexerLength (.indices []) = 0 ∧
    ¬(1 < indexerLength (.indices [])) ∧ ¬(1 < 1) ∧
    stream_flux_raises (indexerLength (.indices [])) 1 = true := by decide

/-- C4 (amended): when both resolved arguments are multi-valued both call
sites raise the `ValueError`; `stream_flux` avoids the error exactly when
one argument has length one and the other is nonempty, and
`plot-stream-flux.main` raises exactly when both are multi-valued. -/
theorem multivalued_guard (nt nl : Nat) :
    (1 < nt ∧ 1 < nl →
      stream_flux_raises nt nl = true ∧
      plot_stream_flux_raises nt nl = true) ∧
    (stream_flux_raises nt nl = false ↔
      ((nl = 1 ∧ 1 ≤ nt) ∨ (nt = 1 ∧ 1 ≤ nl))) ∧
    (plot_stream_flux_raises nt nl = true ↔ (1 < nt ∧ 1 < nl)) := by
  unfold stream_flux_raises plot_stream_flux_raises
  refine ⟨?_, ?_, ?_⟩ <;> split_ifs <;> simp_all <;> omega

/-- Witness for C4 at `ntimes = 2`, `nlocations = 2`. -/
theorem multivalued_guard_witness :
    stream_flux_raises 2 2 = true ∧ plot_stream_flux_raises 2 2 = true :=
  (multivalued_guard 2 2).1 (by decide)

/-- C7: provided the external Savitzky-Golay filter returns an array of
the input's length, `smooth` preserves the length, every returned entry
is strictly positive, and an everywhere-positive filtered array is
returned unchanged. -/
theorem smooth_positive (savgol : List ℚ → List ℚ) (x : List ℚ)
    (hlen : (savgol x).length = x.length) :
    (smooth savgol x).length = x.length ∧
    (∀ v ∈ smooth savgol x, 0 < v) ∧
    ((∀ v ∈ savgol x, 0 < v) → smooth savgol x = savgol x) := by
  refine ⟨by simpa [smooth] using hlen, ?_, ?_⟩
  · intro v hv
    simp only [smooth, List.mem_map] at hv
    rcases hv with ⟨w, _, rfl⟩
    by_cases h : 0 < w
    · simp [h]
    · simpa [h] using float_info_min_pos
  · intro hpos
    simp only [smooth]
    calc (savgol x).map (fun v => if 0 < v then v else float_info_min)
        = (savgol x).map id := List.map_congr_left
          (fun a ha => if_pos (hpos a ha))
      _ = savgol x := List.map_id _

/-- Witness for C7 at the filter `id` and the input `[1, -1]`. -/
theorem smooth_positive_witness :
    (smooth id [1, -1]).length = ([1, -1] : List ℚ).length ∧
    (∀ v ∈ smooth id [1, -1], 0 < v) := by
  have h := smooth_positive id [1, -1] rfl
  exact ⟨h.1, h.2.1⟩

/-- C8: parsing the node-history file with header
`# data name: rho; time unit: days; data unit: cm^-3;` and rows
`0.0 1.0`, `1.0 2.0` yields time `[0.0, 1.0]`, data `[1.0, 2.0]` and the
three metadata entries. -/
theorem parse_history_example :
    parse_history
      ["# data name: rho; time unit: days; data unit: cm^-3;",
       "0.0 1.0", "1.0 2.0"] =
      some ⟨[0, 1], [1, 2],
        [("data name", "rho"), ("time unit", "days"),
         ("data unit", "cm^-3")]⟩ := by decide

/-- C9: an explicit zero is a valid selection, never "absent":
`compute_indexer(["0"])` yields `Indices((0,))`, `get_species` returns a
supplied species unchanged (also when it is `0`) and defaults to `0` only
for `None`, and `get_location` returns a supplied shell unchanged (also
when it is `0`). -/
theorem zero_is_valid_selection :
    compute_indexer (some ["0"]) = IndexerResult.ok (.indices [0]) ∧
    (∀ s : SpeciesValue, get_species (some s) = s) ∧
    get_species none = .index 0 ∧
    (∀ s : Int, ∀ r, get_location (some s) r = some (.shell s)) ∧
    (∀ r, get_location (some 0) r = some (.shell 0)) := by
  exact ⟨by decide, fun s => rfl, rfl, fun s r => rfl, fun r => rfl⟩

/-- C10: the trailing token is never validated as non-numeric before being
used as the unit — whenever integer parsing fails somewhere but every
token before the last parses as a float, the result is a measurement whose
unit is the last token, even when that token itself parses as a float, as
in `resolve(["1", "2.5"]) == Measurement([1.0], "2.5")`. -/
theorem compute_indexer_numeric_unit (l : List String) (u : String)
    (vs : List ℚ) (h2 : 2 ≤ l.length) (hint : l.mapM pyint = none)
    (hu : l.getLast? = some u)
    (hv : (l.dropLast).mapM pyfloat = some vs) :
    compute_indexer (some l) = IndexerResult.ok (.measurement vs u) ∧
    compute_indexer (some ["1", "2.5"]) =
      IndexerResult.ok (.measurement [1] "2.5") ∧
    pyfloat "2.5" = some (mkRat 5 2) := by
  refine ⟨?_, by decide, by decide⟩
  simp only [compute_indexer]
  rw [if_neg (by omega), hint, hu, hv]

/-- Witness for C10 at the concrete input `["1", "2.5"]`, whose trailing
token is float-parseable. -/
theorem compute_indexer_numeric_unit_witness :
    compute_indexer (some ["1", "2.5"]) =
      IndexerResult.ok (.measurement [1] "2.5") :=
  (compute_indexer_numeric_unit ["1", "2.5"] "2.5" [1] (by decide)
    (by decide) (by decide) (by decide)).1

/-- `sys.float_info.epsilon`, the machine epsilon of IEEE doubles,
`2 ^ (-52)`, used by the numeric utilities as the zero-flooring
threshold. -/
noncomputable def float_info_epsilon : ℝ := 1 / 2 ^ 52

/-- `numpy.arctan2(y, x)`: the angle of the point `(x, y)` in `(-π, π]`,
which is the complex argument of `x + i y`. -/
noncomputable def arctan2 (y x : ℝ) : ℝ := Complex.arg ⟨x, y⟩

/-- `zero_floor` from `src/support/numerics.py` lines 118-129 (scalar
case): round a value smaller than `sys.float_info.epsilon` in magnitude to
exactly zero. -/
noncomputable def zero_floor (v : ℝ) : ℝ :=
  if |v| < float_info_epsilon then 0 else v

/-- The radial component of `xyz2rtp` (`src/support/numerics.py` lines
54-55), elementwise:

```
r = numpy.sqrt(x*x + y*y + z*z)
r[numpy.asarray(numpy.abs(r) < sys.float_info.epsilon).nonzero()] = 0.0
```
-/
noncomputable def sphericalR (x y z : ℝ) : ℝ :=
  if |Real.sqrt (x * x + y * y + z * z)| < float_info_epsilon then 0
  else Real.sqrt (x * x + y * y + z * z)

/-- The polar component of `xyz2rtp` (`src/support/numerics.py` lines
56-57), elementwise:

```
t = numpy.arccos(z/r)
t[numpy.asarray(r == 0).nonzero()] = 0.0
```
-/
noncomputable def sphericalTheta (x y z : ℝ) : ℝ :=
  if sphericalR x y z = 0 then 0 else Real.arccos (z / sphericalR x y z)

/-- The azimuthal component of `xyz2rtp` (`src/support/numerics.py` lines
58-65), elementwise (it depends only on `x` and `y`):

```
p = numpy.arctan2(y, x)
p[numpy.asarray(p < 0.0).nonzero()] += 2*numpy.pi
p[... x == 0 and y >= 0 ...] = +0.5*numpy.pi
p[... x == 0 and y < 0  ...] = -0.5*numpy.pi
```
-/
noncomputable def sphericalPhi (x y : ℝ) : ℝ :=
  if x = 0 ∧ 0 ≤ y then Real.pi / 2
  else if x = 0 ∧ y < 0 then -(Real.pi / 2)
  else if arctan2 y x < 0 then arctan2 y x + 2 * Real.pi
  else arctan2 y x

/-- `xyz2rtp` from `src/support/numerics.py` lines 15-66, elementwise on
one Cartesian triple. -/
noncomputable def xyz2rtp (x y z : ℝ) : ℝ × ℝ × ℝ :=
  (sphericalR x y z, sphericalTheta x y z, sphericalPhi x y)

/-- `rtp2xyz` from `src/support/numerics.py` lines 69-115, elementwise on
one spherical triple:

```
x = zero_floor(r * numpy.sin(t) * numpy.cos(p))
y = zero_floor(r * numpy.sin(t) * numpy.sin(p))
z = zero_floor(r * numpy.cos(t))
```
-/
noncomputable def rtp2xyz (r t p : ℝ) : ℝ × ℝ × ℝ :=
  (zero_floor (r * Real.sin t * Real.cos p),
   zero_floor (r * Real.sin t * Real.sin p),
   zero_floor (r * Real.cos t))

/-- The spec's round-trip composition `rtp2xyz(xyz2rtp(x, y, z))`. -/
noncomputable def roundtrip (x y z : ℝ) : ℝ × ℝ × ℝ :=
  rtp2xyz (xyz2rtp x y z).1 (xyz2rtp x y z).2.1 (xyz2rtp x y z).2.2

/-- The machine-epsilon threshold is positive. -/
lemma float_info_epsilon_pos : 0 < float_info_epsilon := by
  unfold float_info_epsilon
  positivity

/-- Case analysis of the azimuthal branch logic: off the `x = 0 ∧ y < 0`
override the angle lands in `[0, 2π)`, and the two on-axis overrides
produce `±π/2` literally. -/
lemma sphericalPhi_cases (x y : ℝ) :
    (¬(x = 0 ∧ y < 0) →
      0 ≤ sphericalPhi x y ∧ sphericalPhi x y < 2 * Real.pi) ∧
    (x = 0 ∧ y < 0 → sphericalPhi x y = -(Real.pi / 2)) ∧
    (x = 0 ∧ 0 ≤ y → sphericalPhi x y = Real.pi / 2) := by
  have hpi := Real.pi_pos
  have h1 := Complex.arg_le_pi (⟨x, y⟩ : ℂ)
  have h2 := Complex.neg_pi_lt_arg (⟨x, y⟩ : ℂ)
  unfold sphericalPhi arctan2
  refine ⟨?_, ?_, ?_⟩
  · intro h
    by_cases hx : x = 0
    · have hy : 0 ≤ y := by
        by_contra hy
        exact h ⟨hx, lt_of_not_le hy⟩
      rw [if_pos ⟨hx, hy⟩]
      constructor <;> linarith
    · rw [if_neg (fun hc => hx hc.1), if_neg (fun hc => hx hc.1)]
      split_ifs with h3
      · constructor <;> linarith
      · push_neg at h3
        constructor <;> linarith
  · rintro ⟨hx, hy⟩
    rw [if_neg (fun hc => absurd hy (not_lt.mpr hc.2)), if_pos ⟨hx, hy⟩]
  · rintro ⟨hx, hy⟩
    rw [if_pos ⟨hx, hy⟩]

/-- C5 (counterexample): at the on-axis input `(0, -1, 0)` the azimuthal
angle returned by `xyz2rtp` is `-π/2`, which is negative and hence outside
`[0, 2π)`. -/
theorem xyz2rtp_phi_negative_cex :
    (xyz2rtp 0 (-1) 0).2.2 = -(Real.pi / 2) ∧
    (xyz2rtp 0 (-1) 0).2.2 < 0 := by
  have h := (sphericalPhi_cases 0 (-1)).2.1 (by norm_num)
  have hpi := Real.pi_pos
  refine ⟨h, ?_⟩
  show sphericalPhi 0 (-1) < 0
  rw [h]
  linarith

/-- C5 (amended): the azimuthal angle of `xyz2rtp` lies in `[0, 2π)` for
every input except those with `x = 0 ∧ y < 0`, where the on-axis override
returns `-π/2` (outside `[0, 2π)`); for `x = 0 ∧ y ≥ 0` it returns
`+π/2`. -/
theorem xyz2rtp_phi_range (x y z : ℝ) :
    (¬(x = 0 ∧ y < 0) →
      0 ≤ (xyz2rtp x y z).2.2 ∧ (xyz2rtp x y z).2.2 < 2 * Real.pi) ∧
    (x = 0 ∧ y < 0 → (xyz2rtp x y z).2.2 = -(Real.pi / 2)) ∧
    (x = 0 ∧ 0 ≤ y → (xyz2rtp x y z).2.2 = Real.pi / 2) :=
  sphericalPhi_cases x y

/-- Witness for C5 at `(1, 0, 0)`, where the azimuth is in range. -/
theorem xyz2rtp_phi_range_witness :
    0 ≤ (xyz2rtp 1 0 0).2.2 ∧ (xyz2rtp 1 0 0).2.2 < 2 * Real.pi :=
  (xyz2rtp_phi_range 1 0 0).1 (by norm_num)

/-- `zero_floor` is the identity on values that are exactly zero or at
least machine epsilon in magnitude. -/
lemma zero_floor_id (v : ℝ) (h : v = 0 ∨ float_info_epsilon ≤ |v|) :
    zero_floor v = v := by
  unfold zero_floor
  rcases h with rfl | h
  · split_ifs <;> rfl
  · rw [if_neg (not_lt.mpr h)]

/-- The inverse trigonometric identities behind the round trip: away from
the zero-radius degenerate case, scaling the spherical components back
recovers the Cartesian ones exactly. -/
lemma xyz2rtp_core (x y z : ℝ)
    (hr : float_info_epsilon ≤ Real.sqrt (x * x + y * y + z * z)) :
    sphericalR x y z * Real.sin (sphericalTheta x y z) *
      Real.cos (sphericalPhi x y) = x ∧
    sphericalR x y z * Real.sin (sphericalTheta x y z) *
      Real.sin (sphericalPhi x y) = y ∧
    sphericalR x y z * Real.cos (sphericalTheta x y z) = z := by
  set r0 := Real.sqrt (x * x + y * y + z * z) with hr0def
  have hsum : 0 ≤ x * x + y * y + z * z :=
    add_nonneg (add_nonneg (mul_self_nonneg x) (mul_self_nonneg y))
      (mul_self_nonneg z)
  have hr0nonneg : 0 ≤ r0 := Real.sqrt_nonneg _
  have hr0pos : 0 < r0 := lt_of_lt_of_le float_info_epsilon_pos hr
  have hR : sphericalR x y z = r0 := by
    unfold sphericalR
    rw [← hr0def, abs_of_nonneg hr0nonneg, if_neg (not_lt.mpr hr)]

  have hr0sq : r0 ^ 2 = x * x + y * y + z * z := Real.sq_sqrt hsum
  have hzle : |z| ≤ r0 := by
    rw [← Real.sqrt_mul_self_eq_abs]
    exact Real.sqrt_le_sqrt (by nlinarith [mul_self_nonneg x, mul_self_nonneg y])
  have hzr : |z / r0| ≤ 1 := by
    rw [abs_div, abs_of_nonneg hr0nonneg]
    exact (div_le_one hr0pos).mpr hzle
  have hzr' := abs_le.mp hzr
  have hT : sphericalTheta x y z = Real.arccos (z / r0) := by
    unfold sphericalTheta
    rw [hR, if_neg hr0pos.ne']
  have hcosT : Real.cos (sphericalTheta x y z) = z / r0 := by
    rw [hT]
    exact Real.cos_arccos hzr'.1 hzr'.2
  have hZ : sphericalR x y z * Real.cos (sphericalTheta x y z) = z := by
    rw [hR, hcosT]
    field_simp
  have hsinT : Real.sin (sphericalTheta x y z) =
      Real.sqrt (1 - (z / r0) ^ 2) := by
    rw [hT]
    exact Real.sin_arccos _
  have hq : (0:ℝ) ≤ 1 - (z / r0) ^ 2 := by
    have h1 : (z / r0) ^ 2 ≤ 1 := by nlinarith [hzr'.1, hzr'.2]
    linarith
  have hrsin : r0 * Real.sin (sphericalTheta x y z) =
      Real.sqrt (x * x + y * y) := by
    rw [hsinT]
    have hnn : 0 ≤ r0 * Real.sqrt (1 - (z / r0) ^ 2) := by positivity
    have hstep : r0 ^ 2 * (1 - (z / r0) ^ 2) = r0 ^ 2 - z ^ 2 := by
      field_simp
    have hsq : (r0 * Real.sqrt (1 - (z / r0) ^ 2)) ^ 2 = x * x + y * y := by
      rw [mul_pow, Real.sq_sqrt hq, hstep, hr0sq]
      ring
    calc r0 * Real.sqrt (1 - (z / r0) ^ 2)
        = Real.sqrt ((r0 * Real.sqrt (1 - (z / r0) ^ 2)) ^ 2) :=
          (Real.sqrt_sq hnn).symm
      _ = Real.sqrt (x * x + y * y) := by rw [hsq]
  by_cases hx : x = 0
  · by_cases hy : 0 ≤ y
    · have hphi : sphericalPhi x y = Real.pi / 2 :=
        (sphericalPhi_cases x y).2.2 ⟨hx, hy⟩
      have hcos : Real.cos (sphericalPhi x y) = 0 := by
        rw [hphi]
        exact Real.cos_pi_div_two
      have hsin : Real.sin (sphericalPhi x y) = 1 := by
        rw [hphi]
        exact Real.sin_pi_div_two
      refine ⟨?_, ?_, hZ⟩
      · rw [hcos, mul_zero, hx]
      · rw [hR, hrsin, hsin, mul_one, hx]
        rw [zero_mul, zero_add, Real.sqrt_mul_self_eq_abs]
        exact abs_of_nonneg hy
    · have hy' : y < 0 := lt_of_not_le hy
      have hphi : sphericalPhi x y = -(Real.pi / 2) :=
        (sphericalPhi_cases x y).2.1 ⟨hx, hy'⟩
      have hcos : Real.cos (sphericalPhi x y) = 0 := by
        rw [hphi, Real.cos_neg]
        exact Real.cos_pi_div_two
      have hsin : Real.sin (sphericalPhi x y) = -1 := by
        rw [hphi, Real.sin_neg, Real.sin_pi_div_two]
      refine ⟨?_, ?_, hZ⟩
      · rw [hcos, mul_zero, hx]
      · rw [hR, hrsin, hsin, hx]
        rw [zero_mul, zero_add, Real.sqrt_mul_self_eq_abs]
        rw [abs_of_neg hy']
        ring
  · have hC : (⟨x, y⟩ : ℂ) ≠ 0 := by
      intro hc
      exact hx (by simpa using congrArg Complex.re hc)
    have habs : Complex.abs ⟨x, y⟩ = Real.sqrt (x * x + y * y) := by
      rw [Complex.abs_apply, Complex.normSq_mk]
    have hcosarg : Real.cos (arctan2 y x) =
        x / Real.sqrt (x * x + y * y) := by
      unfold arctan2
      rw [Complex.cos_arg hC, habs]
    have hsinarg : Real.sin (arctan2 y x) =
        y / Real.sqrt (x * x + y * y) := by
      unfold arctan2
      rw [Complex.sin_arg, habs]
    have hphi_cos : Real.cos (sphericalPhi x y) =
        x / Real.sqrt (x * x + y * y) := by
      unfold sphericalPhi
      rw [if_neg (fun hc => hx hc.1), if_neg (fun hc => hx hc.1)]
      split_ifs with h3
      · rw [Real.cos_add_two_pi]
        exact hcosarg
      · exact hcosarg
    have hphi_sin : Real.sin (sphericalPhi x y) =
        y / Real.sqrt (x * x + y * y) := by
      unfold sphericalPhi
      rw [if_neg (fun hc => hx hc.1), if_neg (fun hc => hx hc.1)]
      split_ifs with h3
      · rw [Real.sin_add_two_pi]
        exact hsinarg
      · exact hsinarg
    have hspos : 0 < Real.sqrt (x * x + y * y) :=
      Real.sqrt_pos.mpr (by nlinarith [mul_self_pos.mpr hx, mul_self_nonneg y])
    refine ⟨?_, ?_, hZ⟩
    · rw [hR, hrsin, hphi_cos]
      field_simp
    · rw [hR, hrsin, hphi_sin]
      field_simp

/-- `zero_floor` fixes zero. -/
lemma zero_floor_zero : zero_floor 0 = 0 := by
  unfold zero_floor
  split_ifs <;> rfl

/-- C6: the transforms are mutually inverse — for a non-degenerate triple
(radius at least machine epsilon and each component exactly zero or at
least machine epsilon in magnitude, so that the sub-epsilon floor is the
identity) the round trip is exact, and at the origin the round trip
returns exactly `(0, 0, 0)`. -/
theorem rtp2xyz_roundtrip (x y z : ℝ)
    (hx : x = 0 ∨ float_info_epsilon ≤ |x|)
    (hy : y = 0 ∨ float_info_epsilon ≤ |y|)
    (hz : z = 0 ∨ float_info_epsilon ≤ |z|)
    (hr : float_info_epsilon ≤ Real.sqrt (x * x + y * y + z * z)) :
    roundtrip x y z = (x, y, z) ∧ roundtrip 0 0 0 = (0, 0, 0) := by
  have hcore := xyz2rtp_core x y z hr
  constructor
  · show (zero_floor (sphericalR x y z * Real.sin (sphericalTheta x y z) *
        Real.cos (sphericalPhi x y)),
      zero_floor (sphericalR x y z * Real.sin (sphericalTheta x y z) *
        Real.sin (sphericalPhi x y)),
      zero_floor (sphericalR x y z * Real.cos (sphericalTheta x y z))) =
      (x, y, z)
    rw [hcore.1, hcore.2.1, hcore.2.2, zero_floor_id x hx, zero_floor_id y hy,
      zero_floor_id z hz]
  · have hR0 : sphericalR 0 0 0 = 0 := by
      unfold sphericalR
      rw [if_pos]
      rw [show (0:ℝ) * 0 + 0 * 0 + 0 * 0 = 0 by norm_num, Real.sqrt_zero,
        abs_zero]
      exact float_info_epsilon_pos
    have hT0 : sphericalTheta 0 0 0 = 0 := by
      unfold sphericalTheta
      rw [if_pos hR0]
    show (zero_floor (sphericalR 0 0 0 * Real.sin (sphericalTheta 0 0 0) *
        Real.cos (sphericalPhi 0 0)),
      zero_floor (sphericalR 0 0 0 * Real.sin (sphericalTheta 0 0 0) *
        Real.sin (sphericalPhi 0 0)),
      zero_floor (sphericalR 0 0 0 * Real.cos (sphericalTheta 0 0 0))) =
      (0, 0, 0)
    rw [hR0, hT0]
    rw [zero_mul, zero_mul, zero_mul, zero_mul, zero_floor_zero]

/-- Witness for C6 at the non-degenerate triple `(1, 0, 0)` and at the
origin. -/
theorem rtp2xyz_roundtrip_witness :
    roundtrip 1 0 0 = (1, 0, 0) ∧ roundtrip 0 0 0 = (0, 0, 0) := by
  have heps : float_info_epsilon ≤ 1 := by
    unfold float_info_epsilon
    norm_num
  refine rtp2xyz_roundtrip 1 0 0 (Or.inr ?_) (Or.inl rfl) (Or.inl rfl) ?_
  · rw [abs_one]
    exact heps
  · rw [show (1:ℝ) * 1 + 0 * 0 + 0 * 0 = 1 by norm_num, Real.sqrt_one]
    exact heps
